import Mathlib

/-!
# node_dbx_commit: a shallow embedding of `main.go`

The program composes a conventional-commit message from a commit type, a ticket
name, a message text and a breaking-change flag, asks for confirmation and runs
`git commit`.

Modelling conventions.

* A Go `string` is modelled by a Lean `String`, that is, by a sequence of Unicode
  code points (a Go string holding valid UTF-8).
* An `error` value is modelled by its text; a `(T, error)` result is an `Except String T`.
* The library functions the program calls (`fmt.Sprintf`, `strings.TrimSpace`,
  `strings.ToLower`, `strings.Split`, `bufio.Reader.ReadString`, `regexp.MatchString`)
  are modelled from their documented behaviour, restricted to the features the
  program uses.
* The effects of a run of `main` (writes to the standard streams, the usage text,
  the two `git` processes, the read of standard input) are recorded in order as a
  list of `Event`s, together with the exit code of the process.
-/

namespace NodeDbxCommit

/-! ## `fmt.Sprintf`, for string operands -/

/-- Text that `fmt` appends for operands left over when the format is exhausted:
`%!(EXTRA string=a, string=b)`. -/
def extraOperands (args : List String) : List Char :=
  "%!(EXTRA ".data ++ (", ".intercalate (args.map fun a => "string=" ++ a)).data ++ ")".data

/-- The formatting loop of `fmt.Sprintf` over the characters of the format, every
operand being a string (or an error, printed through its text). The verbs `%s` and
`%v` print the next operand, `%%` prints a percent sign, another verb character `c`
prints `%!c(string=operand)`, a verb without operand prints `%!c(MISSING)` and a
trailing `%` prints `%!(NOVERB)`. Flags, widths and precisions are not modelled: no
format of this program has any. -/
def sprintfChars : List Char → List String → List Char
  | [], [] => []
  | [], a :: args => extraOperands (a :: args)
  | '%' :: [], args => "%!(NOVERB)".data ++ sprintfChars [] args
  | '%' :: '%' :: rest, args => '%' :: sprintfChars rest args
  | '%' :: c :: rest, [] => "%!".data ++ [c] ++ "(MISSING)".data ++ sprintfChars rest []
  | '%' :: c :: rest, a :: args =>
    if c = 's' ∨ c = 'v' then a.data ++ sprintfChars rest args
    else "%!".data ++ [c] ++ "(string=".data ++ a.data ++ ")".data ++ sprintfChars rest args
  | c :: rest, args => c :: sprintfChars rest args

/-- Go `fmt.Sprintf(format, args...)` for string operands. -/
def Sprintf (format : String) (args : List String) : String :=
  ⟨sprintfChars format.data args⟩

/-! ## Package `strings` and `bufio` -/

/-- Go `unicode.IsSpace`: the code points with the Unicode White_Space property. -/
def isSpace (c : Char) : Bool :=
  let n := c.toNat
  (0x09 ≤ n ∧ n ≤ 0x0D) ∨ n = 0x20 ∨ n = 0x85 ∨ n = 0xA0 ∨ n = 0x1680 ∨
    (0x2000 ≤ n ∧ n ≤ 0x200A) ∨ n = 0x2028 ∨ n = 0x2029 ∨ n = 0x202F ∨ n = 0x205F ∨ n = 0x3000

/-- Go `strings.TrimSpace` on the characters of a string: all leading and all
trailing white space removed. -/
def trimSpaceChars (s : List Char) : List Char :=
  ((s.dropWhile isSpace).reverse.dropWhile isSpace).reverse

/-- Go `strings.TrimSpace`. -/
def TrimSpace (s : String) : String :=
  ⟨trimSpaceChars s.data⟩

/-- Go `unicode.ToLower` on one rune. The ASCII range is computed as the library does
(`'A'..'Z'` shifted by `'a' - 'A'`); above it the library consults the Unicode case
tables, which are the parameter `unicodeToLower`. -/
def toLowerRune (unicodeToLower : Char → Char) (c : Char) : Char :=
  if c.toNat < 0x80 then
    if 'A'.toNat ≤ c.toNat ∧ c.toNat ≤ 'Z'.toNat then Char.ofNat (c.toNat + ('a'.toNat - 'A'.toNat))
    else c
  else unicodeToLower c

/-- Go `strings.ToLower`: every rune mapped to its lower case. -/
def ToLower (unicodeToLower : Char → Char) (s : String) : String :=
  ⟨s.data.map (toLowerRune unicodeToLower)⟩

/-- The loop of `strings.Split` for a non-empty separator. `skip` counts the
characters of a separator just found that are still to be passed over, `cur` holds
the characters of the current piece, last one first. -/
def splitChars (sep : List Char) : Nat → List Char → List Char → List (List Char)
  | _, cur, [] => [cur.reverse]
  | skip + 1, cur, _ :: cs => splitChars sep skip cur cs
  | 0, cur, c :: cs =>
    if sep.isPrefixOf (c :: cs) = true then cur.reverse :: splitChars sep (sep.length - 1) [] cs
    else splitChars sep 0 (c :: cur) cs

/-- Go `strings.Split(s, sep)`: the pieces of `s` between the occurrences of `sep`,
found from the left; with an empty `sep`, one piece per character. -/
def Split (s sep : String) : List String :=
  if sep.data = [] then s.data.map fun c => ⟨[c]⟩
  else (splitChars sep.data 0 [] s.data).map fun piece => ⟨piece⟩

/-- Go `(*bufio.Reader).ReadString(delim)` on the characters still unread: the input
up to and including the first `delim`, or all of it when there is none (the error
reported in that case is dropped by the caller). -/
def readStringChars (delim : Char) : List Char → List Char
  | [] => []
  | c :: cs => if c = delim then [c] else c :: readStringChars delim cs

/-- Go `reader.ReadString(delim)` on a fresh reader over the whole input. -/
def ReadString (input : String) (delim : Char) : String :=
  ⟨readStringChars delim input.data⟩

/-! ## Package `regexp` -/

/-- Syntax trees of the regular expressions the program uses: a literal character,
a character class given by a range, concatenation and `+`. -/
inductive Regexp where
  | lit (c : Char)
  | range (lo hi : Char)
  | cat (a b : Regexp)
  | plus (a : Regexp)

/-- One or more repetitions of `step`, by the unread inputs they can leave. A
repetition that consumes nothing is not repeated, so a fuel of the input length
plus one is never exhausted. -/
def plusRests (step : List Char → List (List Char)) : Nat → List Char → List (List Char)
  | 0, _ => []
  | fuel + 1, s =>
    (step s).flatMap fun r => r :: (if r.length < s.length then plusRests step fuel r else [])

/-- All ways the expression matches at the start of the input: the list of the
unread inputs left after a match. -/
def Regexp.rests : Regexp → List Char → List (List Char)
  | .lit _, [] => []
  | .lit c, x :: xs => if x = c then [xs] else []
  | .range _ _, [] => []
  | .range lo hi, x :: xs => if lo.toNat ≤ x.toNat ∧ x.toNat ≤ hi.toNat then [xs] else []
  | .cat a b, s => (a.rests s).flatMap b.rests
  | .plus a, s => plusRests a.rests (s.length + 1) s

/-- Whether the expression matches at the start of the input. -/
def Regexp.matchesAt (re : Regexp) (s : List Char) : Bool :=
  !(re.rests s).isEmpty

/-- Go `regexp.MatchString` for a compiled pattern: whether the string contains any
match of the expression, starting at any position. -/
def Regexp.MatchString (re : Regexp) (s : String) : Bool :=
  s.data.tails.any re.matchesAt

/-- The pattern `"NODE-[0-9]+"` as compiled by `regexp`. -/
def ticketPattern : Regexp :=
  .cat (.lit 'N') (.cat (.lit 'O') (.cat (.lit 'D') (.cat (.lit 'E') (.cat (.lit '-')
    (.plus (.range '0' '9'))))))

/-! ## Commit types -/

/-- Go `type CommitType = string`. -/
abbrev CommitType := String

def Fix : CommitType := "fix"
def Feat : CommitType := "feat"
def Docs : CommitType := "docs"
def Style : CommitType := "style"
def Refactor : CommitType := "refactor"
def Perf : CommitType := "perf"
def Test : CommitType := "test"
def Ci : CommitType := "ci"
def Chore : CommitType := "chore"

/-- Go `commitTypeValid`: a `switch` on the nine commit type constants. -/
def commitTypeValid (commitType : String) : Bool :=
  if commitType = Fix ∨ commitType = Feat ∨ commitType = Docs ∨ commitType = Style ∨
      commitType = Refactor ∨ commitType = Perf ∨ commitType = Test ∨ commitType = Ci ∨
      commitType = Chore then
    true
  else
    false

/-! ## The message builder -/

/-- Go `buildCommitMessage`. -/
def buildCommitMessage (commitType ticketName commitMsg : String) (isBreaking : Bool) : String :=
  let breaking : String := if isBreaking then "!" else ""
  Sprintf "%s(%s)%s: %s" [commitType, ticketName, breaking, commitMsg]


/-! ## The Git bridge -/

/-- Go `getTicketNameFromGit`. The parameter is the result of `statusCmd.Output()`:
the standard output of `git branch --show-current`, or its error. The result is
`none` when the function panics (the index expression `[0]` out of range), otherwise
the returned pair `(ticketName, err)`. -/
def getTicketNameFromGit (statusOut : Except String String) : Option (Except String String) :=
  match statusOut with
  | .error err => some (.error err)
  | .ok out =>
    let branchName := TrimSpace out
    match (Split branchName "/")[0]? with
    | none => none
    | some ticketName => some (.ok ticketName)

/-- Go `validateTicketName`. The pattern compiles, so the error of `MatchString` that
the function drops is always nil. -/
def validateTicketName (ticketName : String) : Bool :=
  ticketPattern.MatchString ticketName

/-! ## The program -/

/-- The command-line flags after `flag.Parse()`, under the names of the variables of
`main`; the defaults are those registered with package `flag`. -/
structure Flags where
  commitType : String := Fix
  commitMsg : String := ""
  ticketName : String := ""
  isBreaking : Bool := false
  readTicketFromGit : Bool := true
  dryRun : Bool := false
  listCommitTypes : Bool := false

/-- What a run finds outside the program. -/
structure World where
  /-- Result of running `git branch --show-current`: its standard output or its error. -/
  gitBranch : Except String String
  /-- Contents of standard input. -/
  stdin : String
  /-- Result of running `git commit --message msg`: its standard output or its error. -/
  gitCommit : String → Except String String
  /-- The lower-case mapping of the Unicode tables of package `unicode`. -/
  unicodeToLower : Char → Char

/-- The effects of a run, as they can be observed from outside. -/
inductive Event where
  /-- Text written to standard output. -/
  | stdout (text : String)
  /-- Text written to standard error. -/
  | stderr (text : String)
  /-- A call of `flag.Usage()`. -/
  | usage
  /-- The process `git branch --show-current` is run. -/
  | gitBranch
  /-- A line is read from standard input. -/
  | readStdin
  /-- The process `git commit --message msg` is run. -/
  | gitCommit (msg : String)
  /-- A run-time panic. -/
  | panic
  deriving DecidableEq

/-- A finished run: its effects in order and the exit code of the process. -/
structure Run where
  events : List Event
  exitCode : Nat
  deriving DecidableEq

/-- The text printed for `-list-types` (the raw string literal of `main`). -/
def commitTypesText : String :=
  "Commit Types\n" ++
  "    fix: A bug fix\n" ++
  "    feat: Adding a new feature or deprecating (not removing) an existing feature\n" ++
  "    docs: Documentation only changes\n" ++
  "    style: Changes that do not affect the meaning of the code (white-space, formatting, missing semicolons, etc)\n" ++
  "    refactor: A code change that neither fixes a bug nor adds a feature\n" ++
  "    perf: A code change that improves performance\n" ++
  "    test: Adding missing or correcting existing tests\n" ++
  "    ci: Changes to the build process or testing infrastructure\n" ++
  "    chore: Changes to auxiliary tools / scripts or dev-dependency upgrades\n"

/-- The part of Go `main` from the composed message on (the `if !dryRun` statement).
`pre` holds the effects of the run so far. -/
def confirmAndCommit (w : World) (dryRun : Bool) (fullCommitMsg : String) (pre : List Event) : Run :=
  if !dryRun then
    let prompt := Event.stdout (Sprintf "Create new commit with message \"%s\"? (y/n):\n" [fullCommitMsg])
    let text := ReadString w.stdin '\n'
    let text := TrimSpace (ToLower w.unicodeToLower text)
    if text = "y" ∨ text = "yes" then
      match w.gitCommit fullCommitMsg with
      | .error err =>
        { events := pre ++ [prompt, .readStdin, .gitCommit fullCommitMsg,
            .stderr (Sprintf "git commit failed with error: %s" [err])],
          exitCode := 1 }
      | .ok commandOut =>
        { events := pre ++ [prompt, .readStdin, .gitCommit fullCommitMsg,
            .stdout "\n", .stdout (commandOut ++ "\n")],
          exitCode := 0 }
    else if text = "n" ∨ text = "no" then
      { events := pre ++ [prompt, .readStdin, .stdout "Aborting\n"], exitCode := 0 }
    else
      { events := pre ++ [prompt, .readStdin, .stdout "Invalid option. Aborting\n"], exitCode := 1 }
  else
    { events := pre ++ [.stdout (Sprintf "Commit message: \"%s\"\n" [fullCommitMsg])],
      exitCode := 0 }

/-- The part of Go `main` from the ticket pattern check on. -/
def validateAndCommit (f : Flags) (w : World) (ticketName : String) (pre : List Event) : Run :=
  if !validateTicketName ticketName then
    { events := pre ++ [.stderr "Ticket name does not match expected pattern: NODE-xxxx\n"],
      exitCode := 1 }
  else
    let fullCommitMsg := buildCommitMessage f.commitType ticketName f.commitMsg f.isBreaking
    confirmAndCommit w f.dryRun fullCommitMsg pre

/-- Go `main`, after `flag.Parse()`. A call of `os.Exit(n)` ends the run with exit
code `n`, a return from `main` with exit code 0, a panic with exit code 2. -/
def main (f : Flags) (w : World) : Run :=
  if f.listCommitTypes then
    { events := [.stdout (Sprintf commitTypesText [])], exitCode := 0 }
  else
    let readTicketFromGit := if f.ticketName ≠ "" then false else f.readTicketFromGit
    if !commitTypeValid f.commitType then
      { events := [.stderr (Sprintf "Invalid commit type: %s\n" [f.commitType]), .usage],
        exitCode := 1 }
    else if f.commitMsg = "" then
      { events := [.stderr "Empty commit message\n", .usage], exitCode := 1 }
    else if readTicketFromGit then
      match getTicketNameFromGit w.gitBranch with
      | none => { events := [.gitBranch, .panic], exitCode := 2 }
      | some (.error err) =>
        { events := [.gitBranch,
            .stderr (Sprintf "Failed to get ticket name from git. Failed with: \x27%v\x27" [err])],
          exitCode := 1 }
      | some (.ok ticketName) => validateAndCommit f w ticketName [.gitBranch]
    else
      validateAndCommit f w f.ticketName []

/-! ## Lemmas on the library models -/

/-- A format without a verb and without operands is printed as it is. -/
theorem sprintfChars_noVerb (l : List Char) (h : '%' ∉ l) : sprintfChars l [] = l := by
  induction l with
  | nil => simp [sprintfChars]
  | cons c rest ih =>
    have hc : c ≠ '%' := fun e => h (by simp [e])
    have hrest : '%' ∉ rest := fun e => h (by simp [e])
    rw [sprintfChars, ih hrest]
    all_goals intros; simp_all

set_option maxRecDepth 20000 in
/-- The table of commit types holds no formatting verb. -/
theorem commitTypesText_noVerb : '%' ∉ commitTypesText.data := by
  decide

set_option maxRecDepth 20000 in
/-- The lines of the table of commit types: the heading, then one line for each of
the nine commit types. -/
theorem commitTypesText_lines :
    Split commitTypesText "\n" =
        ["Commit Types",
          "    fix: A bug fix",
          "    feat: Adding a new feature or deprecating (not removing) an existing feature",
          "    docs: Documentation only changes",
          "    style: Changes that do not affect the meaning of the code (white-space, formatting, missing semicolons, etc)",
          "    refactor: A code change that neither fixes a bug nor adds a feature",
          "    perf: A code change that improves performance",
          "    test: Adding missing or correcting existing tests",
          "    ci: Changes to the build process or testing infrastructure",
          "    chore: Changes to auxiliary tools / scripts or dev-dependency upgrades",
          ""] := by
  decide

/-- Printing the table of commit types with `Printf` writes the table itself. -/
theorem Sprintf_commitTypesText : Sprintf commitTypesText [] = commitTypesText := by
  apply String.ext
  simp only [Sprintf]
  exact sprintfChars_noVerb _ commitTypesText_noVerb

/-- The confirmation prompt, written out. -/
theorem Sprintf_prompt (m : String) :
    Sprintf "Create new commit with message \"%s\"? (y/n):\n" [m] =
      "Create new commit with message \"" ++ m ++ "\"? (y/n):\n" := by
  apply String.ext
  simp [Sprintf, sprintfChars]

/-- The line of a dry run, written out. -/
theorem Sprintf_dryRun (m : String) :
    Sprintf "Commit message: \"%s\"\n" [m] = "Commit message: \"" ++ m ++ "\"\n" := by
  apply String.ext
  simp [Sprintf, sprintfChars]

/-- The first piece that `strings.Split` cuts off at `/` is the text before the first
`/`, after what the current piece already holds. -/
theorem splitChars_slash (s cur : List Char) :
    ∃ rest, splitChars ['/'] 0 cur s =
      (cur.reverse ++ s.takeWhile (fun c => decide (c ≠ '/'))) :: rest := by
  induction s generalizing cur with
  | nil => exact ⟨[], by simp [splitChars]⟩
  | cons c cs ih =>
    by_cases hc : c = '/'
    · subst hc
      exact ⟨splitChars ['/'] 0 [] cs, by simp [splitChars]⟩
    · obtain ⟨rest, hrest⟩ := ih (c :: cur)
      refine ⟨rest, ?_⟩
      have hc2 : ¬ ('/' = c) := fun e => hc e.symm
      simp [splitChars, hc, hc2, hrest]

/-- A text either has no `/`, or is the text before its first `/`, the `/` and a rest. -/
theorem takeWhile_slash (l : List Char) :
    l.takeWhile (fun c => decide (c ≠ '/')) = l ∨
      ∃ r, l = l.takeWhile (fun c => decide (c ≠ '/')) ++ '/' :: r := by
  induction l with
  | nil => simp
  | cons c cs ih =>
    by_cases hc : c = '/'
    · subst hc
      exact Or.inr ⟨cs, by simp⟩
    · have hstep : (c :: cs).takeWhile (fun c => decide (c ≠ '/')) =
          c :: cs.takeWhile (fun c => decide (c ≠ '/')) := by
        simp [List.takeWhile_cons, hc]
      rw [hstep]
      rcases ih with h | ⟨r, hr⟩
      · left
        rw [h]
      · right
        exact ⟨r, congrArg (List.cons c) hr⟩

/-- The ticket derived from the output of `git branch --show-current`. -/
theorem getTicketNameFromGit_ok (o : String) :
    getTicketNameFromGit (.ok o) =
      some (.ok ⟨(TrimSpace o).data.takeWhile (fun c => decide (c ≠ '/'))⟩) := by
  obtain ⟨rest, hrest⟩ := splitChars_slash (TrimSpace o).data []
  have hsep : "/".data = ['/'] := rfl
  simp [getTicketNameFromGit, Split, hsep, hrest]

/-- A literal followed by an expression matches at the start of the input exactly when
the input starts with the literal and the expression matches what follows. -/
theorem matchesAt_lit_cat (c : Char) (b : Regexp) (s : List Char) :
    (Regexp.cat (.lit c) b).matchesAt s = true ↔ ∃ xs, s = c :: xs ∧ b.matchesAt xs = true := by
  cases s with
  | nil => simp [Regexp.matchesAt, Regexp.rests]
  | cons x xs =>
    by_cases hx : x = c
    · simp [Regexp.matchesAt, Regexp.rests, hx]
    · simp [Regexp.matchesAt, Regexp.rests, hx]

/-- One or more characters of a range match at the start of the input exactly when
the input starts with a character of the range. -/
theorem matchesAt_plus_range (lo hi : Char) (s : List Char) :
    (Regexp.plus (.range lo hi)).matchesAt s = true ↔
      ∃ d xs, s = d :: xs ∧ lo.toNat ≤ d.toNat ∧ d.toNat ≤ hi.toNat := by
  cases s with
  | nil => simp [Regexp.matchesAt, Regexp.rests, plusRests]
  | cons x xs =>
    by_cases hx : lo.toNat ≤ x.toNat ∧ x.toNat ≤ hi.toNat
    · simp [Regexp.matchesAt, Regexp.rests, plusRests, hx]
    · have hx2 : ¬ (lo.toNat ≤ x.toNat ∧ x.toNat ≤ hi.toNat) := hx
      simp only [Regexp.matchesAt, Regexp.rests, plusRests, if_neg hx]
      simp only [List.flatMap_nil, List.isEmpty_nil, Bool.not_true, Bool.false_eq_true,
        false_iff, not_exists, not_and]
      intro d ys hs h1 h2
      cases hs
      exact hx2 ⟨h1, h2⟩

/-- The ticket pattern matches at the start of the input exactly when the input starts
with `NODE-` and a decimal digit. -/
theorem ticketPattern_matchesAt (s : List Char) :
    ticketPattern.matchesAt s = true ↔
      ∃ d xs, s = 'N' :: 'O' :: 'D' :: 'E' :: '-' :: d :: xs ∧
        '0'.toNat ≤ d.toNat ∧ d.toNat ≤ '9'.toNat := by
  unfold ticketPattern
  simp only [matchesAt_lit_cat, matchesAt_plus_range]
  constructor
  · rintro ⟨_, rfl, _, rfl, _, rfl, _, rfl, _, rfl, d, xs, rfl, hd⟩
    exact ⟨d, xs, rfl, hd⟩
  · rintro ⟨d, xs, rfl, hd⟩
    exact ⟨_, rfl, _, rfl, _, rfl, _, rfl, _, rfl, d, xs, rfl, hd⟩

/-- The ticket check on the characters of the name: somewhere in it stands `NODE-`
followed by a decimal digit. -/
theorem validateTicketName_iff_chars (s : String) :
    validateTicketName s = true ↔
      ∃ (p : List Char) (d : Char) (q : List Char),
        s.data = p ++ 'N' :: 'O' :: 'D' :: 'E' :: '-' :: d :: q ∧
          '0'.toNat ≤ d.toNat ∧ d.toNat ≤ '9'.toNat := by
  unfold validateTicketName Regexp.MatchString
  simp only [List.any_eq_true, List.mem_tails, ticketPattern_matchesAt]
  constructor
  · rintro ⟨t, ⟨p, hp⟩, d, q, rfl, hd⟩
    exact ⟨p, d, q, hp.symm, hd⟩
  · rintro ⟨p, d, q, hs, hd⟩
    exact ⟨_, ⟨p, hs.symm⟩, d, q, rfl, hd⟩

/-! ## Lemmas on the control flow of `main` -/

/-- A run whose type, message and ticket pass validation continues at the `if !dryRun`
statement with the message composed from them; before that it has run
`git branch --show-current` exactly when the ticket was looked up. -/
theorem main_of_valid (f : Flags) (w : World) (ticket : String)
    (hlist : f.listCommitTypes = false)
    (htype : commitTypeValid f.commitType = true) (hmsg : f.commitMsg ≠ "")
    (hticket : ((f.ticketName ≠ "" ∨ f.readTicketFromGit = false) ∧ ticket = f.ticketName) ∨
      (f.ticketName = "" ∧ f.readTicketFromGit = true ∧
        getTicketNameFromGit w.gitBranch = some (.ok ticket)))
    (hvalid : validateTicketName ticket = true) :
    main f w =
      confirmAndCommit w f.dryRun
        (buildCommitMessage f.commitType ticket f.commitMsg f.isBreaking)
        (if f.ticketName = "" ∧ f.readTicketFromGit = true then [Event.gitBranch] else []) := by
  unfold main
  rcases hticket with ⟨h, rfl⟩ | ⟨h1, h2, h3⟩
  · rcases h with h | h
    · simp [hlist, htype, hmsg, h, validateAndCommit, hvalid]
    · simp [hlist, htype, hmsg, h, validateAndCommit, hvalid]
  · simp [hlist, htype, hmsg, h1, h2, h3, validateAndCommit, hvalid]

/-- No `git commit` and no read of standard input happens before the `if !dryRun`
statement. -/
theorem pre_events (b : Prop) [Decidable b] :
    (∀ m, Event.gitCommit m ∉ (if b then [Event.gitBranch] else [])) ∧
    Event.readStdin ∉ (if b then [Event.gitBranch] else []) ∧
    ∀ t, Event.stdout t ∉ (if b then [Event.gitBranch] else []) := by
  by_cases h : b <;> simp [h]

/-- The `if !dryRun` statement runs `git commit` exactly when the run is not a dry
run and the normalised answer is `y` or `yes`, and then on the composed message. -/
theorem confirmAndCommit_commit_iff (w : World) (dryRun : Bool) (msg m : String)
    (pre : List Event) (hpre : ∀ m, Event.gitCommit m ∉ pre) :
    Event.gitCommit m ∈ (confirmAndCommit w dryRun msg pre).events ↔
      dryRun = false ∧ m = msg ∧
        (TrimSpace (ToLower w.unicodeToLower (ReadString w.stdin '\n')) = "y" ∨
         TrimSpace (ToLower w.unicodeToLower (ReadString w.stdin '\n')) = "yes") := by
  unfold confirmAndCommit
  cases dryRun
  · simp only [Bool.not_false, if_true]
    split_ifs with h1 h2
    · split <;> simp [hpre, h1]
    · simp [hpre, h1]
    · simp [hpre, h1]
  · simp [hpre]

/-- The `if !dryRun` statement does not run `git branch --show-current`. -/
theorem confirmAndCommit_gitBranch (w : World) (dryRun : Bool) (msg : String)
    (pre : List Event) (hpre : Event.gitBranch ∉ pre) :
    Event.gitBranch ∉ (confirmAndCommit w dryRun msg pre).events := by
  unfold confirmAndCommit
  cases dryRun
  · simp only [Bool.not_false, if_true]
    split_ifs
    · split <;> simp [hpre]
    · simp [hpre]
    · simp [hpre]
  · simp [hpre]

/-- The exit code of the `if !dryRun` statement when the run is not a dry run. -/
theorem confirmAndCommit_exitCode (w : World) (msg : String) (pre : List Event) :
    (confirmAndCommit w false msg pre).exitCode =
      if TrimSpace (ToLower w.unicodeToLower (ReadString w.stdin '\n')) = "y" ∨
          TrimSpace (ToLower w.unicodeToLower (ReadString w.stdin '\n')) = "yes" then
        match w.gitCommit msg with
        | .error _ => 1
        | .ok _ => 0
      else if TrimSpace (ToLower w.unicodeToLower (ReadString w.stdin '\n')) = "n" ∨
          TrimSpace (ToLower w.unicodeToLower (ReadString w.stdin '\n')) = "no" then 0
      else 1 := by
  unfold confirmAndCommit
  simp only [Bool.not_false, if_true]
  split_ifs with h1 h2
  · split <;> simp
  · rfl
  · rfl

/-- The error line for an unrecognised commit type, written out. -/
theorem Sprintf_invalidType (t : String) :
    Sprintf "Invalid commit type: %s\n" [t] = "Invalid commit type: " ++ t ++ "\n" := by
  apply String.ext
  simp [Sprintf, sprintfChars]

/-- The statements of `main` after the `-list-types` test, with the lookup of the
ticket resolved: `getTicketNameFromGit` never panics, and on the output `o` it returns
the text of the trimmed `o` before the first `/`. -/
theorem main_eq (f : Flags) (w : World) (hlist : f.listCommitTypes = false) :
    main f w =
      if commitTypeValid f.commitType = false then
        { events := [.stderr (Sprintf "Invalid commit type: %s\n" [f.commitType]), .usage],
          exitCode := 1 }
      else if f.commitMsg = "" then
        { events := [.stderr "Empty commit message\n", .usage], exitCode := 1 }
      else if f.ticketName = "" ∧ f.readTicketFromGit = true then
        match w.gitBranch with
        | .error err =>
          { events := [.gitBranch,
              .stderr (Sprintf "Failed to get ticket name from git. Failed with: \x27%v\x27" [err])],
            exitCode := 1 }
        | .ok o =>
          validateAndCommit f w ⟨(TrimSpace o).data.takeWhile (fun c => decide (c ≠ '/'))⟩
            [.gitBranch]
      else
        validateAndCommit f w f.ticketName [] := by
  unfold main
  rw [if_neg (by simp [hlist])]
  by_cases h1 : commitTypeValid f.commitType = true
  · by_cases h2 : f.commitMsg = ""
    · simp [h1, h2]
    · by_cases h3 : f.ticketName = ""
      · by_cases h4 : f.readTicketFromGit = true
        · cases hb : w.gitBranch with
          | error err => simp [h1, h2, h3, h4, getTicketNameFromGit]
          | ok o => simp [h1, h2, h3, h4, getTicketNameFromGit_ok]
        · simp [h1, h2, h3, h4]
      · simp [h1, h2, h3]
  · simp [h1]

/-- The exit code of `main` from the ticket pattern check on. -/
theorem validateAndCommit_exitCode (f : Flags) (w : World) (t : String) (pre : List Event) :
    (validateAndCommit f w t pre).exitCode =
      if validateTicketName t = false then 1
      else if f.dryRun = true then 0
      else if TrimSpace (ToLower w.unicodeToLower (ReadString w.stdin '\n')) = "y" ∨
          TrimSpace (ToLower w.unicodeToLower (ReadString w.stdin '\n')) = "yes" then
        match w.gitCommit (buildCommitMessage f.commitType t f.commitMsg f.isBreaking) with
        | .error _ => 1
        | .ok _ => 0
      else if TrimSpace (ToLower w.unicodeToLower (ReadString w.stdin '\n')) = "n" ∨
          TrimSpace (ToLower w.unicodeToLower (ReadString w.stdin '\n')) = "no" then 0
      else 1 := by
  unfold validateAndCommit
  by_cases hv : validateTicketName t = true
  · cases hd : f.dryRun
    · simp only [hv, Bool.not_true, Bool.false_eq_true, if_false, confirmAndCommit_exitCode]
      simp
    · simp [hv, confirmAndCommit]
  · simp [hv]

/-- Where the ticket of a run comes from: the `-ticket` flag, unless it is empty and
`-autoticket` is set, and then the output of `git branch --show-current`. -/
theorem ticket_source_iff (f : Flags) (w : World) (ticket : String) :
    (((f.ticketName ≠ "" ∨ f.readTicketFromGit = false) ∧ ticket = f.ticketName) ∨
      (f.ticketName = "" ∧ f.readTicketFromGit = true ∧
        getTicketNameFromGit w.gitBranch = some (.ok ticket))) ↔
    if f.ticketName = "" ∧ f.readTicketFromGit = true then
      ∃ o, w.gitBranch = .ok o ∧
        ticket = ⟨(TrimSpace o).data.takeWhile (fun c => decide (c ≠ '/'))⟩
    else ticket = f.ticketName := by
  by_cases h : f.ticketName = "" ∧ f.readTicketFromGit = true
  · rw [if_pos h]
    obtain ⟨h1, h2⟩ := h
    cases hb : w.gitBranch with
    | error err => simp [h1, h2, getTicketNameFromGit]
    | ok o =>
      simp only [h1, h2, getTicketNameFromGit_ok]
      simp [eq_comm]
  · rw [if_neg h]
    constructor
    · rintro (⟨_, h1⟩ | ⟨h1, h2, _⟩)
      · exact h1
      · exact absurd ⟨h1, h2⟩ h
    · intro h1
      refine Or.inl ⟨?_, h1⟩
      by_cases h2 : f.ticketName = ""
      · right
        cases h3 : f.readTicketFromGit
        · rfl
        · exact absurd ⟨h2, h3⟩ h
      · exact Or.inl h2

/-- The exit code of `main` from the ticket pattern check on is 0 or 1, and it is 0
exactly when the ticket matches and the run is a dry run, or is declined, or is
confirmed and `git commit` succeeds. -/
theorem validateAndCommit_exit_zero (f : Flags) (w : World) (t : String) (pre : List Event) :
    ((validateAndCommit f w t pre).exitCode = 0 ∨ (validateAndCommit f w t pre).exitCode = 1) ∧
    ((validateAndCommit f w t pre).exitCode = 0 ↔
      validateTicketName t = true ∧
        (f.dryRun = true ∨
          (TrimSpace (ToLower w.unicodeToLower (ReadString w.stdin '\n')) = "n" ∨
            TrimSpace (ToLower w.unicodeToLower (ReadString w.stdin '\n')) = "no") ∨
          ((TrimSpace (ToLower w.unicodeToLower (ReadString w.stdin '\n')) = "y" ∨
            TrimSpace (ToLower w.unicodeToLower (ReadString w.stdin '\n')) = "yes") ∧
            ∃ out, w.gitCommit (buildCommitMessage f.commitType t f.commitMsg f.isBreaking) =
              .ok out))) := by
  rw [validateAndCommit_exitCode]
  generalize TrimSpace (ToLower w.unicodeToLower (ReadString w.stdin '\n')) = a
  by_cases hv : validateTicketName t = true
  · by_cases hd : f.dryRun = true
    · simp [hv, hd]
    · by_cases hy : a = "y" ∨ a = "yes"
      · have hn : ¬ (a = "n" ∨ a = "no") := by
          rcases hy with h | h <;> rw [h] <;> decide
        cases hc : w.gitCommit (buildCommitMessage f.commitType t f.commitMsg f.isBreaking) with
        | error err => simp [hv, hd, hy, hn]
        | ok out => simp [hv, hd, hy]
      · by_cases hn : a = "n" ∨ a = "no"
        · simp [hv, hd, hy, hn]
        · simp [hv, hd, hy, hn]
  · simp [hv]

/-- The error line for a failed lookup of the branch, written out. -/
theorem Sprintf_lookupFailed (err : String) :
    Sprintf "Failed to get ticket name from git. Failed with: \x27%v\x27" [err] =
      "Failed to get ticket name from git. Failed with: \x27" ++ err ++ "\x27" := by
  apply String.ext
  simp [Sprintf, sprintfChars]

/-- Text made of white space only is trimmed to nothing. -/
theorem trimSpaceChars_blank (l : List Char) (h : ∀ c ∈ l, isSpace c = true) :
    trimSpaceChars l = [] := by
  unfold trimSpaceChars
  have hd : l.dropWhile isSpace = [] := List.dropWhile_eq_nil_iff.2 h
  simp [hd]

/-- Splitting at `/` always yields a first piece, the text before the first `/`. -/
theorem Split_slash (t : String) :
    ∃ rest, Split t "/" = ⟨t.data.takeWhile (fun c => decide (c ≠ '/'))⟩ :: rest := by
  obtain ⟨rest, hrest⟩ := splitChars_slash t.data []
  have hsep : "/".data = ['/'] := rfl
  exact ⟨rest.map fun piece => ⟨piece⟩, by simp [Split, hsep, hrest]⟩

/-- The events of `main` from the ticket pattern check on: those before it, then
either the pattern error, or the line of the dry run, or the prompt, the read of the
answer and what the answer leads to, where `git commit` runs at most once and only on
the composed message. -/
theorem validateAndCommit_events (f : Flags) (w : World) (t : String) (pre : List Event) :
    ∃ rest : List Event,
      (∀ m, Event.gitCommit m ∈ rest →
        m = buildCommitMessage f.commitType t f.commitMsg f.isBreaking) ∧
      (∀ m, rest.count (Event.gitCommit m) ≤ 1) ∧
      Event.gitBranch ∉ rest ∧
      (validateAndCommit f w t pre).events =
        pre ++
          (if validateTicketName t = false then
            [Event.stderr "Ticket name does not match expected pattern: NODE-xxxx\n"]
          else if f.dryRun = true then
            [Event.stdout ("Commit message: \"" ++
              buildCommitMessage f.commitType t f.commitMsg f.isBreaking ++ "\"\n")]
          else
            Event.stdout ("Create new commit with message \"" ++
                buildCommitMessage f.commitType t f.commitMsg f.isBreaking ++ "\"? (y/n):\n") ::
              Event.readStdin :: rest) := by
  unfold validateAndCommit confirmAndCommit
  by_cases hv : validateTicketName t = true
  · cases hd : f.dryRun
    · simp only [hv, Bool.not_true, Bool.false_eq_true, if_false, Bool.not_false, if_true,
        Sprintf_prompt, Bool.true_eq_false]
      split_ifs with h1 h2
      · cases hc : w.gitCommit (buildCommitMessage f.commitType t f.commitMsg f.isBreaking) with
        | error err =>
          refine ⟨[Event.gitCommit (buildCommitMessage f.commitType t f.commitMsg f.isBreaking),
            Event.stderr (Sprintf "git commit failed with error: %s" [err])], ?_, ?_, ?_, by simp⟩
          · intro m hm
            simpa using hm
          · intro m
            simp only [List.count_cons, List.count_nil]
            split_ifs <;> simp_all
          · simp
        | ok out =>
          refine ⟨[Event.gitCommit (buildCommitMessage f.commitType t f.commitMsg f.isBreaking),
            Event.stdout "\n", Event.stdout (out ++ "\n")], ?_, ?_, ?_, by simp⟩
          · intro m hm
            simpa using hm
          · intro m
            simp only [List.count_cons, List.count_nil]
            split_ifs <;> simp_all
          · simp
      · exact ⟨[Event.stdout "Aborting\n"], by simp, by simp [List.count_cons], by simp, by simp⟩
      · exact ⟨[Event.stdout "Invalid option. Aborting\n"], by simp, by simp [List.count_cons],
          by simp, by simp⟩
    · exact ⟨[], by simp, by simp, by simp, by simp [hv, Sprintf_dryRun]⟩
  · exact ⟨[], by simp, by simp, by simp, by simp [hv]⟩

/-- With `-list-types` the run is the print of the table. -/
theorem main_listTypes (f : Flags) (w : World) (hlist : f.listCommitTypes = true) :
    main f w = { events := [.stdout (Sprintf commitTypesText [])], exitCode := 0 } := by
  unfold main
  rw [if_pos hlist]

/-- From the ticket pattern check on, `git branch --show-current` is among the events
exactly when it was among those before. -/
theorem validateAndCommit_gitBranch (f : Flags) (w : World) (t : String) (pre : List Event) :
    Event.gitBranch ∈ (validateAndCommit f w t pre).events ↔ Event.gitBranch ∈ pre := by
  obtain ⟨rest, _, _, hgb, hev⟩ := validateAndCommit_events f w t pre
  rw [hev]
  split_ifs <;> simp [hgb]

/-- The two shapes of a run without `-list-types`. Either it is rejected, and all it
does is write to standard error, print the usage and possibly look up the branch; or
its type, message and ticket pass validation, and after the possible lookup it shows
the composed message in the line of the dry run or in the prompt. -/
theorem main_events_cases (f : Flags) (w : World) (hlist : f.listCommitTypes = false) :
    (∀ e ∈ (main f w).events, (∃ t, e = Event.stderr t) ∨ e = Event.usage ∨ e = Event.gitBranch) ∨
    ∃ (ticket : String) (rest : List Event),
      commitTypeValid f.commitType = true ∧ f.commitMsg ≠ "" ∧
      (((f.ticketName ≠ "" ∨ f.readTicketFromGit = false) ∧ ticket = f.ticketName) ∨
        (f.ticketName = "" ∧ f.readTicketFromGit = true ∧
          getTicketNameFromGit w.gitBranch = some (.ok ticket))) ∧
      validateTicketName ticket = true ∧
      (∀ m, Event.gitCommit m ∈ rest →
        m = buildCommitMessage f.commitType ticket f.commitMsg f.isBreaking) ∧
      (∀ m, rest.count (Event.gitCommit m) ≤ 1) ∧
      (main f w).events =
        (if f.ticketName = "" ∧ f.readTicketFromGit = true then [Event.gitBranch] else []) ++
          (if f.dryRun = true then
            [Event.stdout ("Commit message: \"" ++
              buildCommitMessage f.commitType ticket f.commitMsg f.isBreaking ++ "\"\n")]
          else
            Event.stdout ("Create new commit with message \"" ++
                buildCommitMessage f.commitType ticket f.commitMsg f.isBreaking ++
                "\"? (y/n):\n") ::
              Event.readStdin :: rest) := by
  have hvac : ∀ (t : String) (pre : List Event),
      (((f.ticketName ≠ "" ∨ f.readTicketFromGit = false) ∧ t = f.ticketName) ∨
        (f.ticketName = "" ∧ f.readTicketFromGit = true ∧
          getTicketNameFromGit w.gitBranch = some (.ok t))) →
      commitTypeValid f.commitType = true → f.commitMsg ≠ "" →
      pre = (if f.ticketName = "" ∧ f.readTicketFromGit = true then [Event.gitBranch] else []) →
      main f w = validateAndCommit f w t pre →
      ((∀ e ∈ (main f w).events,
          (∃ t, e = Event.stderr t) ∨ e = Event.usage ∨ e = Event.gitBranch) ∨
        ∃ (ticket : String) (rest : List Event),
          commitTypeValid f.commitType = true ∧ f.commitMsg ≠ "" ∧
          (((f.ticketName ≠ "" ∨ f.readTicketFromGit = false) ∧ ticket = f.ticketName) ∨
            (f.ticketName = "" ∧ f.readTicketFromGit = true ∧
              getTicketNameFromGit w.gitBranch = some (.ok ticket))) ∧
          validateTicketName ticket = true ∧
          (∀ m, Event.gitCommit m ∈ rest →
            m = buildCommitMessage f.commitType ticket f.commitMsg f.isBreaking) ∧
          (∀ m, rest.count (Event.gitCommit m) ≤ 1) ∧
          (main f w).events =
            (if f.ticketName = "" ∧ f.readTicketFromGit = true then [Event.gitBranch] else []) ++
              (if f.dryRun = true then
                [Event.stdout ("Commit message: \"" ++
                  buildCommitMessage f.commitType ticket f.commitMsg f.isBreaking ++ "\"\n")]
              else
                Event.stdout ("Create new commit with message \"" ++
                    buildCommitMessage f.commitType ticket f.commitMsg f.isBreaking ++
                    "\"? (y/n):\n") ::
                  Event.readStdin :: rest)) := by
    intro t pre hsrc h1 h2 hpre hmain
    obtain ⟨rest, hr1, hr2, _, hev⟩ := validateAndCommit_events f w t pre
    by_cases hv : validateTicketName t = true
    · right
      refine ⟨t, rest, h1, h2, hsrc, hv, hr1, hr2, ?_⟩
      rw [hmain, hev, hpre]
      simp [hv]
    · left
      rw [hmain, hev, hpre]
      have hv2 : validateTicketName t = false := by simpa using hv
      rw [if_pos hv2]
      intro e he
      split_ifs at he <;> simp at he
      · rcases he with rfl | rfl <;> simp
      · subst he
        simp
  have hm := main_eq f w hlist
  by_cases h1 : commitTypeValid f.commitType = true
  · by_cases h2 : f.commitMsg = ""
    · left
      rw [hm]
      simp [h1, h2]
    · by_cases h3 : f.ticketName = "" ∧ f.readTicketFromGit = true
      · cases hb : w.gitBranch with
        | error err =>
          left
          rw [hm, hb]
          simp [h1, h2, h3]
        | ok o =>
          rw [← hb]
          refine hvac ⟨(TrimSpace o).data.takeWhile (fun c => decide (c ≠ '/'))⟩
            [Event.gitBranch] (Or.inr ⟨h3.1, h3.2, ?_⟩) h1 h2 (by rw [if_pos h3]) ?_
          · rw [hb, getTicketNameFromGit_ok]
          · rw [hm, hb]
            simp [h1, h2, h3]
      · refine hvac f.ticketName [] (Or.inl ⟨?_, rfl⟩) h1 h2 (by rw [if_neg h3]) ?_
        · by_cases h4 : f.ticketName = ""
          · right
            cases h5 : f.readTicketFromGit
            · rfl
            · exact absurd ⟨h4, h5⟩ h3
          · exact Or.inl h4
        · rw [hm]
          simp only [h1, h2, if_neg h3, Bool.true_eq_false, if_false]
  · left
    rw [hm]
    simp [h1]

/-- The ticket of a run is determined by the flags and the output of the lookup. -/
theorem ticket_source_unique (f : Flags) (w : World) (t1 t2 : String)
    (h1 : ((f.ticketName ≠ "" ∨ f.readTicketFromGit = false) ∧ t1 = f.ticketName) ∨
      (f.ticketName = "" ∧ f.readTicketFromGit = true ∧
        getTicketNameFromGit w.gitBranch = some (.ok t1)))
    (h2 : ((f.ticketName ≠ "" ∨ f.readTicketFromGit = false) ∧ t2 = f.ticketName) ∨
      (f.ticketName = "" ∧ f.readTicketFromGit = true ∧
        getTicketNameFromGit w.gitBranch = some (.ok t2))) :
    t1 = t2 := by
  rw [ticket_source_iff] at h1 h2
  split_ifs at h1 h2
  · obtain ⟨o1, ho1, rfl⟩ := h1
    obtain ⟨o2, ho2, rfl⟩ := h2
    rw [ho1] at ho2
    cases ho2
    rfl
  · rw [h1, h2]

/-! ## The claims -/

/-- C1: for all strings t, k, m the message builder returns `t(k): m` when the change
is not breaking and `t(k)!: m` when it is. -/
theorem buildCommitMessage_eq (t k m : String) :
    buildCommitMessage t k m false = t ++ "(" ++ k ++ "): " ++ m ∧
    buildCommitMessage t k m true = t ++ "(" ++ k ++ ")!: " ++ m := by
  constructor <;>
  · apply String.ext
    simp [buildCommitMessage, Sprintf, sprintfChars]

/-- C2: `commitTypeValid s` holds exactly when `s` is one of the nine commit type
strings; the comparison is exact, so a differently cased spelling is not valid. -/
theorem commitTypeValid_iff (s : String) :
    (commitTypeValid s = true ↔
      s = "fix" ∨ s = "feat" ∨ s = "docs" ∨ s = "style" ∨ s = "refactor" ∨ s = "perf" ∨
        s = "test" ∨ s = "ci" ∨ s = "chore") ∧
    commitTypeValid "Fix" = false ∧ commitTypeValid "FEAT" = false := by
  refine ⟨?_, by decide, by decide⟩
  simp [commitTypeValid, Fix, Feat, Docs, Style, Refactor, Perf, Test, Ci, Chore]

/-- C3 (the code departs from the claim): `validateTicketName` accepts ticket names
that are not of the form `NODE-<digits>`, with text after the digits or before
`NODE-`, and a dry run with such a ticket composes a message from it and succeeds. -/
theorem validateTicketName_accepts_surrounding_text (w : World) :
    validateTicketName "NODE-12abc" = true ∧ validateTicketName "xNODE-1" = true ∧
    main { commitMsg := "m", ticketName := "NODE-12abc", dryRun := true } w =
      { events := [.stdout "Commit message: \"fix(NODE-12abc): m\"\n"], exitCode := 0 } := by
  refine ⟨by decide, by decide, ?_⟩
  rfl

/-- C4: in a run that is not a dry run and whose type, message and ticket pass
validation, let `a` be the line read from standard input, lower-cased and with the
surrounding white space removed. `git commit` runs exactly when `a` is `y` or `yes`
(and then on the composed message); when `a` is `n` or `no` the run ends with exit
code 0 and no commit; for any other `a` it ends with exit code 1 and no commit. The
inputs `Y`, `YES` followed by a newline and ` y ` lead to the commit; `maybe` and the
empty input lead to exit code 1. -/
theorem confirmation_flow (f : Flags) (w : World) (ticket a : String)
    (hdry : f.dryRun = false) (hlist : f.listCommitTypes = false)
    (htype : commitTypeValid f.commitType = true) (hmsg : f.commitMsg ≠ "")
    (hticket : ((f.ticketName ≠ "" ∨ f.readTicketFromGit = false) ∧ ticket = f.ticketName) ∨
      (f.ticketName = "" ∧ f.readTicketFromGit = true ∧
        getTicketNameFromGit w.gitBranch = some (.ok ticket)))
    (hvalid : validateTicketName ticket = true)
    (ha : a = TrimSpace (ToLower w.unicodeToLower (ReadString w.stdin '\n'))) :
    ((∃ m, Event.gitCommit m ∈ (main f w).events) ↔ (a = "y" ∨ a = "yes")) ∧
    (a = "y" ∨ a = "yes" →
      Event.gitCommit (buildCommitMessage f.commitType ticket f.commitMsg f.isBreaking) ∈
        (main f w).events) ∧
    (a = "n" ∨ a = "no" →
      (main f w).exitCode = 0 ∧ ∀ m, Event.gitCommit m ∉ (main f w).events) ∧
    (¬ (a = "y" ∨ a = "yes" ∨ a = "n" ∨ a = "no") →
      (main f w).exitCode = 1 ∧ ∀ m, Event.gitCommit m ∉ (main f w).events) ∧
    (w.stdin = "Y" ∨ w.stdin = "YES\n" ∨ w.stdin = " y " → a = "y" ∨ a = "yes") ∧
    (w.stdin = "maybe" ∨ w.stdin = "" → ¬ (a = "y" ∨ a = "yes" ∨ a = "n" ∨ a = "no")) := by
  have hmain := main_of_valid f w ticket hlist htype hmsg hticket hvalid
  have hpre := (pre_events (f.ticketName = "" ∧ f.readTicketFromGit = true)).1
  have hmem : ∀ m, Event.gitCommit m ∈ (main f w).events ↔
      m = buildCommitMessage f.commitType ticket f.commitMsg f.isBreaking ∧
        (a = "y" ∨ a = "yes") := by
    intro m
    rw [hmain, confirmAndCommit_commit_iff _ _ _ _ _ hpre, ha]
    simp [hdry]
  have hexit := confirmAndCommit_exitCode w
    (buildCommitMessage f.commitType ticket f.commitMsg f.isBreaking)
    (if f.ticketName = "" ∧ f.readTicketFromGit = true then [Event.gitBranch] else [])
  rw [← hdry, ← hmain, ← ha] at hexit
  refine ⟨?_, ?_, ?_, ?_, ?_, ?_⟩
  · constructor
    · rintro ⟨m, hm⟩
      exact ((hmem m).1 hm).2
    · intro h
      exact ⟨_, (hmem _).2 ⟨rfl, h⟩⟩
  · intro h
    exact (hmem _).2 ⟨rfl, h⟩
  · intro h
    have hny : ¬ (a = "y" ∨ a = "yes") := by
      rcases h with h | h <;> rw [h] <;> decide
    refine ⟨?_, fun m hm => hny ((hmem m).1 hm).2⟩
    rw [hexit, if_neg hny, if_pos h]
  · intro h
    have hny : ¬ (a = "y" ∨ a = "yes") := fun h1 => h (by tauto)
    have hnn : ¬ (a = "n" ∨ a = "no") := fun h1 => h (by tauto)
    refine ⟨?_, fun m hm => hny ((hmem m).1 hm).2⟩
    rw [hexit, if_neg hny, if_neg hnn]
  · intro h
    rcases h with h | h | h <;> rw [ha, h]
    · left; rfl
    · right; rfl
    · left; rfl
  · intro h
    rcases h with h | h <;> rw [ha, h]
    · have e : TrimSpace (ToLower w.unicodeToLower (ReadString "maybe" '\n')) = "maybe" := rfl
      rw [e]; decide
    · have e : TrimSpace (ToLower w.unicodeToLower (ReadString "" '\n')) = "" := rfl
      rw [e]; decide

theorem confirmation_flow_witness :
    Event.gitCommit "fix(NODE-42): hello" ∈
      (main { commitMsg := "hello" }
        { gitBranch := .ok "NODE-42/my-feature\n", stdin := "YES\n",
          gitCommit := fun _ => .ok "", unicodeToLower := id }).events :=
  (confirmation_flow { commitMsg := "hello" }
      { gitBranch := .ok "NODE-42/my-feature\n", stdin := "YES\n",
        gitCommit := fun _ => .ok "", unicodeToLower := id }
      "NODE-42" "yes" rfl rfl (by decide) (by decide) (Or.inr ⟨rfl, rfl, rfl⟩) (by decide)
      rfl).2.1 (Or.inr rfl)

/-- C5: in a run with `-dryrun` (and without `-list-types`) `git commit` is never run
and standard input is never read, whatever the other inputs are; and when the type,
the message and the ticket pass validation, the run prints the line
`Commit message: "M"` with `M` the composed message and ends with exit code 0. -/
theorem dry_run (f : Flags) (w : World)
    (hdry : f.dryRun = true) (hlist : f.listCommitTypes = false) :
    (∀ m, Event.gitCommit m ∉ (main f w).events) ∧
    Event.readStdin ∉ (main f w).events ∧
    ∀ ticket : String,
      commitTypeValid f.commitType = true → f.commitMsg ≠ "" →
      (((f.ticketName ≠ "" ∨ f.readTicketFromGit = false) ∧ ticket = f.ticketName) ∨
        (f.ticketName = "" ∧ f.readTicketFromGit = true ∧
          getTicketNameFromGit w.gitBranch = some (.ok ticket))) →
      validateTicketName ticket = true →
      Event.stdout ("Commit message: \"" ++
          buildCommitMessage f.commitType ticket f.commitMsg f.isBreaking ++ "\"\n") ∈
        (main f w).events ∧
      (main f w).exitCode = 0 := by
  have hrest : ∀ (t : String) (pre : List Event),
      (∀ m, Event.gitCommit m ∉ pre) → Event.readStdin ∉ pre →
      (∀ m, Event.gitCommit m ∉ (validateAndCommit f w t pre).events) ∧
        Event.readStdin ∉ (validateAndCommit f w t pre).events := by
    intro t pre h1 h2
    unfold validateAndCommit confirmAndCommit
    simp only [hdry]
    by_cases hv : validateTicketName t = true <;> simp [hv, h1, h2]
  have hall : (∀ m, Event.gitCommit m ∉ (main f w).events) ∧
      Event.readStdin ∉ (main f w).events := by
    unfold main
    rw [if_neg (by simp [hlist])]
    simp only []
    split_ifs
    all_goals first
      | exact hrest _ _ (by simp) (by simp)
      | (split <;> first | exact hrest _ _ (by simp) (by simp) | simp)
      | simp
  refine ⟨hall.1, hall.2, ?_⟩
  · intro ticket htype hmsg hticket hvalid
    rw [main_of_valid f w ticket hlist htype hmsg hticket hvalid, hdry]
    simp [confirmAndCommit, Sprintf_dryRun]

theorem dry_run_witness :
    Event.stdout "Commit message: \"feat(NODE-7)!: hello\"\n" ∈
        (main { commitType := "feat", commitMsg := "hello", ticketName := "NODE-7",
                isBreaking := true, dryRun := true }
          { gitBranch := .ok "main\n", stdin := "y\n", gitCommit := fun _ => .ok "",
            unicodeToLower := id }).events ∧
      (main { commitType := "feat", commitMsg := "hello", ticketName := "NODE-7",
                isBreaking := true, dryRun := true }
          { gitBranch := .ok "main\n", stdin := "y\n", gitCommit := fun _ => .ok "",
            unicodeToLower := id }).exitCode = 0 :=
  (dry_run { commitType := "feat", commitMsg := "hello", ticketName := "NODE-7",
             isBreaking := true, dryRun := true }
      { gitBranch := .ok "main\n", stdin := "y\n", gitCommit := fun _ => .ok "",
        unicodeToLower := id } rfl rfl).2.2 "NODE-7" (by decide) (by decide)
      (Or.inl ⟨Or.inl (by decide), rfl⟩) (by decide)

/-- C6: for every output `o` of `git branch --show-current` the derived ticket is the
part of `o`, trimmed of surrounding white space, that precedes the first `/`: it has
no `/`, and the trimmed output is either the ticket itself or the ticket, a `/` and
a rest. For `NODE-42/my-feature` followed by a newline the ticket is `NODE-42`; for
`main` followed by a newline it is `main`, which `validateTicketName` rejects. -/
theorem branch_ticket (o : String) :
    (∃ t : String, getTicketNameFromGit (.ok o) = some (.ok t) ∧ '/' ∉ t.data ∧
      (t = TrimSpace o ∨ ∃ r : String, TrimSpace o = t ++ "/" ++ r)) ∧
    getTicketNameFromGit (.ok "NODE-42/my-feature\n") = some (.ok "NODE-42") ∧
    getTicketNameFromGit (.ok "main\n") = some (.ok "main") ∧
    validateTicketName "main" = false := by
  refine ⟨⟨_, getTicketNameFromGit_ok o, ?_, ?_⟩, rfl, rfl, by decide⟩
  · intro h
    have := List.mem_takeWhile_imp h
    simp at this
  · rcases takeWhile_slash (TrimSpace o).data with h | ⟨r, hr⟩
    · left
      apply String.ext
      exact h
    · right
      refine ⟨⟨r⟩, ?_⟩
      apply String.ext
      have hsep : "/".data = ['/'] := rfl
      simp only [String.data_append, hsep, List.append_assoc, List.singleton_append]
      exact hr

/-- C7: in a run with a non-empty `-ticket` (and without `-list-types`)
`git branch --show-current` is never run; the run is the same whatever `-autoticket`
is and whatever that process would print; and once the type and the message have
passed their checks, the ticket checked against the pattern and put into the composed
message is the supplied one. -/
theorem explicit_ticket (f : Flags) (w : World)
    (hlist : f.listCommitTypes = false) (ht : f.ticketName ≠ "") :
    Event.gitBranch ∉ (main f w).events ∧
    (∀ (b : Bool) (v : Except String String),
      main { f with readTicketFromGit := b } { w with gitBranch := v } = main f w) ∧
    (commitTypeValid f.commitType = true → f.commitMsg ≠ "" →
      main f w =
        if validateTicketName f.ticketName = false then
          { events := [.stderr "Ticket name does not match expected pattern: NODE-xxxx\n"],
            exitCode := 1 }
        else
          confirmAndCommit w f.dryRun
            (buildCommitMessage f.commitType f.ticketName f.commitMsg f.isBreaking) []) ∧
    (∀ m, Event.gitCommit m ∈ (main f w).events →
      m = buildCommitMessage f.commitType f.ticketName f.commitMsg f.isBreaking) := by
  have hmain : ∀ (g : Flags) (v : World), g.listCommitTypes = false → g.ticketName ≠ "" →
      main g v =
        if commitTypeValid g.commitType = false then
          { events := [.stderr (Sprintf "Invalid commit type: %s\n" [g.commitType]), .usage],
            exitCode := 1 }
        else if g.commitMsg = "" then
          { events := [.stderr "Empty commit message\n", .usage], exitCode := 1 }
        else if validateTicketName g.ticketName = false then
          { events := [.stderr "Ticket name does not match expected pattern: NODE-xxxx\n"],
            exitCode := 1 }
        else
          confirmAndCommit v g.dryRun
            (buildCommitMessage g.commitType g.ticketName g.commitMsg g.isBreaking) [] := by
    intro g v hg hgt
    unfold main validateAndCommit
    rw [if_neg (by simp [hg])]
    by_cases h1 : commitTypeValid g.commitType = true <;>
      by_cases h2 : g.commitMsg = "" <;>
      by_cases h3 : validateTicketName g.ticketName = true <;>
      simp [h1, h2, h3, hgt]
  have hcommit : ∀ m, Event.gitCommit m ∈ (main f w).events →
      m = buildCommitMessage f.commitType f.ticketName f.commitMsg f.isBreaking := by
    intro m hm
    rw [hmain f w hlist ht] at hm
    split_ifs at hm
    · simp at hm
    · simp at hm
    · simp at hm
    · exact ((confirmAndCommit_commit_iff _ _ _ _ _ (by simp)).1 hm).2.1
  refine ⟨?_, ?_, ?_, hcommit⟩
  · rw [hmain f w hlist ht]
    split_ifs
    · simp
    · simp
    · simp
    · exact confirmAndCommit_gitBranch _ _ _ _ (by simp)
  · intro b v
    rw [hmain f w hlist ht,
      hmain { f with readTicketFromGit := b } { w with gitBranch := v } hlist ht]
    rfl
  · intro htype hmsg
    rw [hmain f w hlist ht]
    simp [htype, hmsg]

theorem explicit_ticket_witness :
    Event.gitBranch ∉
      (main { commitMsg := "hello", ticketName := "NODE-7" }
        { gitBranch := .ok "NODE-42/my-feature\n", stdin := "y\n",
          gitCommit := fun _ => .ok "", unicodeToLower := id }).events ∧
    ∀ m, Event.gitCommit m ∈
      (main { commitMsg := "hello", ticketName := "NODE-7" }
        { gitBranch := .ok "NODE-42/my-feature\n", stdin := "y\n",
          gitCommit := fun _ => .ok "", unicodeToLower := id }).events →
      m = buildCommitMessage "fix" "NODE-7" "hello" false :=
  ⟨(explicit_ticket { commitMsg := "hello", ticketName := "NODE-7" }
      { gitBranch := .ok "NODE-42/my-feature\n", stdin := "y\n",
        gitCommit := fun _ => .ok "", unicodeToLower := id } rfl (by decide)).1,
   (explicit_ticket { commitMsg := "hello", ticketName := "NODE-7" }
      { gitBranch := .ok "NODE-42/my-feature\n", stdin := "y\n",
        gitCommit := fun _ => .ok "", unicodeToLower := id } rfl (by decide)).2.2.2⟩

/-- C8: with an empty message (and without `-list-types`) the run ends with exit code
1 and never runs `git commit`, whatever the other flags and the outside world are. -/
theorem empty_message_exit_one (f : Flags) (w : World)
    (hlist : f.listCommitTypes = false) (hmsg : f.commitMsg = "") :
    (main f w).exitCode = 1 ∧ ∀ m, Event.gitCommit m ∉ (main f w).events := by
  unfold main
  simp only [hlist, hmsg]
  by_cases ht : commitTypeValid f.commitType = true <;> simp [ht]

theorem empty_message_exit_one_witness :
    (main { commitMsg := "", ticketName := "NODE-1" }
        { gitBranch := .ok "NODE-2/x\n", stdin := "y\n", gitCommit := fun _ => .ok "",
          unicodeToLower := id }).exitCode = 1 :=
  (empty_message_exit_one _ _ rfl rfl).1

/-- C9: with `-list-types` the run prints the table of the nine commit types, written
out here in full, and ends with exit code 0, with no other effect: the text printed
is the heading `Commit Types` and then one line for each of `fix`, `feat`, `docs`,
`style`, `refactor`, `perf`, `test`, `ci` and `chore`. The other flags and the outside
world play no part, so two such runs are equal whatever else differs. -/
theorem list_types_run (f : Flags) (w : World) (hlist : f.listCommitTypes = true) :
    main f w =
      { events := [.stdout
          ("Commit Types\n" ++
          "    fix: A bug fix\n" ++
          "    feat: Adding a new feature or deprecating (not removing) an existing feature\n" ++
          "    docs: Documentation only changes\n" ++
          "    style: Changes that do not affect the meaning of the code (white-space, formatting, missing semicolons, etc)\n" ++
          "    refactor: A code change that neither fixes a bug nor adds a feature\n" ++
          "    perf: A code change that improves performance\n" ++
          "    test: Adding missing or correcting existing tests\n" ++
          "    ci: Changes to the build process or testing infrastructure\n" ++
          "    chore: Changes to auxiliary tools / scripts or dev-dependency upgrades\n")],
        exitCode := 0 } ∧
    (∀ text, Event.stdout text ∈ (main f w).events →
      Split text "\n" =
        ["Commit Types",
          "    fix: A bug fix",
          "    feat: Adding a new feature or deprecating (not removing) an existing feature",
          "    docs: Documentation only changes",
          "    style: Changes that do not affect the meaning of the code (white-space, formatting, missing semicolons, etc)",
          "    refactor: A code change that neither fixes a bug nor adds a feature",
          "    perf: A code change that improves performance",
          "    test: Adding missing or correcting existing tests",
          "    ci: Changes to the build process or testing infrastructure",
          "    chore: Changes to auxiliary tools / scripts or dev-dependency upgrades",
          ""]) ∧
    (∀ m, Event.gitCommit m ∉ (main f w).events) ∧ Event.gitBranch ∉ (main f w).events ∧
    Event.readStdin ∉ (main f w).events ∧
    ∀ (g : Flags) (v : World), g.listCommitTypes = true → main g v = main f w := by
  have key : ∀ (g : Flags) (v : World), g.listCommitTypes = true →
      main g v = { events := [.stdout commitTypesText], exitCode := 0 } := by
    intro g v hg
    simp [main, hg, Sprintf_commitTypesText]
  refine ⟨key f w hlist, ?_, ?_, ?_, ?_, ?_⟩
  · intro text htext
    rw [key f w hlist] at htext
    have ht : text = commitTypesText := by simpa using htext
    rw [ht]
    exact commitTypesText_lines
  · simp [key f w hlist]
  · simp [key f w hlist]
  · simp [key f w hlist]
  · intro g v hg
    rw [key g v hg, key f w hlist]

theorem list_types_run_witness :
    main { commitType := "bogus", commitMsg := "", ticketName := "nope", listCommitTypes := true }
        { gitBranch := .error "exit status 128", stdin := "", gitCommit := fun _ => .error "x",
          unicodeToLower := id } =
      { events := [.stdout
          ("Commit Types\n" ++
          "    fix: A bug fix\n" ++
          "    feat: Adding a new feature or deprecating (not removing) an existing feature\n" ++
          "    docs: Documentation only changes\n" ++
          "    style: Changes that do not affect the meaning of the code (white-space, formatting, missing semicolons, etc)\n" ++
          "    refactor: A code change that neither fixes a bug nor adds a feature\n" ++
          "    perf: A code change that improves performance\n" ++
          "    test: Adding missing or correcting existing tests\n" ++
          "    ci: Changes to the build process or testing infrastructure\n" ++
          "    chore: Changes to auxiliary tools / scripts or dev-dependency upgrades\n")],
        exitCode := 0 } :=
  (list_types_run _ _ rfl).1

/-- C10: `validateTicketName` accepts `NODE-123` and `NODE-0` and rejects `node-123`,
`NODE-`, `NODE123` and the empty string. -/
theorem validateTicketName_examples :
    validateTicketName "NODE-123" = true ∧ validateTicketName "NODE-0" = true ∧
    validateTicketName "node-123" = false ∧ validateTicketName "NODE-" = false ∧
    validateTicketName "NODE123" = false ∧ validateTicketName "" = false := by
  decide

/-- C11: the exit code of every run is 0 or 1, and it is 0 exactly when `-list-types`
is set, or when the type is valid, the message is not empty, the ticket (the
`-ticket` value, or the one a successful lookup returned) matches the pattern, and
the run is a dry run, or the normalised answer is `n` or `no`, or it is `y` or `yes`
and `git commit` succeeds. In every other case the exit code is therefore 1. -/
theorem exit_code_zero_iff (f : Flags) (w : World) :
    ((main f w).exitCode = 0 ∨ (main f w).exitCode = 1) ∧
    ((main f w).exitCode = 0 ↔
      f.listCommitTypes = true ∨
      (commitTypeValid f.commitType = true ∧ f.commitMsg ≠ "" ∧
        ∃ ticket : String,
          (((f.ticketName ≠ "" ∨ f.readTicketFromGit = false) ∧ ticket = f.ticketName) ∨
            (f.ticketName = "" ∧ f.readTicketFromGit = true ∧
              getTicketNameFromGit w.gitBranch = some (.ok ticket))) ∧
          validateTicketName ticket = true ∧
          (f.dryRun = true ∨
            (TrimSpace (ToLower w.unicodeToLower (ReadString w.stdin '\n')) = "n" ∨
              TrimSpace (ToLower w.unicodeToLower (ReadString w.stdin '\n')) = "no") ∨
            ((TrimSpace (ToLower w.unicodeToLower (ReadString w.stdin '\n')) = "y" ∨
              TrimSpace (ToLower w.unicodeToLower (ReadString w.stdin '\n')) = "yes") ∧
              ∃ out,
                w.gitCommit (buildCommitMessage f.commitType ticket f.commitMsg f.isBreaking) =
                  .ok out)))) := by
  by_cases hlist : f.listCommitTypes = true
  · have h0 : (main f w).exitCode = 0 := by
      unfold main
      rw [if_pos hlist]
    exact ⟨Or.inl h0, fun _ => Or.inl hlist, fun _ => h0⟩
  · have hlist2 : f.listCommitTypes = false := by simpa using hlist
    simp only [ticket_source_iff]
    rw [main_eq f w hlist2]
    by_cases h1 : commitTypeValid f.commitType = true
    · by_cases h2 : f.commitMsg = ""
      · simp [h1, h2, hlist2]
      · by_cases h3 : f.ticketName = "" ∧ f.readTicketFromGit = true
        · cases hb : w.gitBranch with
          | error err => simp [h1, h2, h3, hlist2]
          | ok o =>
            have key := validateAndCommit_exit_zero f w
              ⟨(TrimSpace o).data.takeWhile (fun c => decide (c ≠ '/'))⟩ [.gitBranch]
            simp only [h1, h2, h3, hlist2, Bool.true_eq_false, Bool.false_eq_true, if_false,
              if_true, and_self, false_or, true_and, ne_eq, not_false_eq_true]
            refine ⟨key.1, key.2.trans ?_⟩
            constructor
            · intro h
              exact ⟨_, ⟨o, rfl, rfl⟩, h⟩
            · rintro ⟨ticket, ⟨o2, ho2, rfl⟩, h⟩
              cases ho2
              exact h
        · have key := validateAndCommit_exit_zero f w f.ticketName []
          simp only [h1, h2, h3, hlist2, Bool.true_eq_false, Bool.false_eq_true, if_false,
            false_or, true_and, ne_eq, not_false_eq_true]
          refine ⟨key.1, key.2.trans ?_⟩
          constructor
          · intro h
            exact ⟨_, rfl, h⟩
          · rintro ⟨ticket, rfl, h⟩
            exact h
    · simp [h1, hlist2]

/-- C14: `validateTicketName s` holds exactly when `s` contains, at some position,
`NODE-` immediately followed by a decimal digit: the pattern is searched for anywhere
in `s`. So a name that passes still passes with any text put before and after it. -/
theorem validateTicketName_iff_contains (s : String) :
    (validateTicketName s = true ↔
      ∃ (p : String) (d : Char) (q : String),
        s = p ++ "NODE-" ++ String.singleton d ++ q ∧
          '0'.toNat ≤ d.toNat ∧ d.toNat ≤ '9'.toNat) ∧
    (validateTicketName s = true →
      ∀ p q : String, validateTicketName (p ++ s ++ q) = true) := by
  have hnode : "NODE-".data = ['N', 'O', 'D', 'E', '-'] := rfl
  have hiff : ∀ t : String, validateTicketName t = true ↔
      ∃ (p : String) (d : Char) (q : String),
        t = p ++ "NODE-" ++ String.singleton d ++ q ∧
          '0'.toNat ≤ d.toNat ∧ d.toNat ≤ '9'.toNat := by
    intro t
    rw [validateTicketName_iff_chars]
    constructor
    · rintro ⟨p, d, q, hs, hd⟩
      refine ⟨⟨p⟩, d, ⟨q⟩, ?_, hd⟩
      apply String.ext
      simp [hs, hnode, String.singleton]
    · rintro ⟨p, d, q, rfl, hd⟩
      refine ⟨p.data, d, q.data, ?_, hd⟩
      simp [hnode, String.singleton]
  refine ⟨hiff s, ?_⟩
  intro hs p q
  obtain ⟨p1, d, q1, rfl, hd⟩ := (hiff s).1 hs
  refine (hiff _).2 ⟨p ++ p1, d, q1 ++ q, ?_, hd⟩
  simp [String.append_assoc]

/-- C12: `git branch --show-current` is run exactly when `-list-types` is not set, the
type is valid, the message is not empty, `-ticket` is empty and `-autoticket` is set.
An invalid type is reported first and an empty message next, each ending the run
with exit code 1 before any git process; and when the lookup fails the run ends with
exit code 1 right after it, with no ticket check and no `git commit`. -/
theorem git_branch_iff (f : Flags) (w : World) :
    (Event.gitBranch ∈ (main f w).events ↔
      f.listCommitTypes = false ∧ commitTypeValid f.commitType = true ∧ f.commitMsg ≠ "" ∧
        f.ticketName = "" ∧ f.readTicketFromGit = true) ∧
    (f.listCommitTypes = false → commitTypeValid f.commitType = false →
      main f w =
        { events := [.stderr ("Invalid commit type: " ++ f.commitType ++ "\n"), .usage],
          exitCode := 1 }) ∧
    (f.listCommitTypes = false → commitTypeValid f.commitType = true → f.commitMsg = "" →
      main f w = { events := [.stderr "Empty commit message\n", .usage], exitCode := 1 }) ∧
    (∀ err : String, f.listCommitTypes = false → commitTypeValid f.commitType = true →
      f.commitMsg ≠ "" → f.ticketName = "" → f.readTicketFromGit = true →
      w.gitBranch = .error err →
      main f w =
        { events := [.gitBranch,
            .stderr ("Failed to get ticket name from git. Failed with: \x27" ++ err ++ "\x27")],
          exitCode := 1 }) := by
  refine ⟨?_, ?_, ?_, ?_⟩
  · by_cases hlist : f.listCommitTypes = true
    · rw [main_listTypes f w hlist]
      simp [hlist]
    · have hlist2 : f.listCommitTypes = false := by simpa using hlist
      rw [main_eq f w hlist2]
      by_cases h1 : commitTypeValid f.commitType = true
      · by_cases h2 : f.commitMsg = ""
        · simp [h1, h2]
        · by_cases h3 : f.ticketName = "" ∧ f.readTicketFromGit = true
          · cases hb : w.gitBranch with
            | error err => simp [h1, h2, h3, hlist2]
            | ok o => simp [h1, h2, h3, hlist2, validateAndCommit_gitBranch]
          · have h4 : ¬ (f.ticketName = "" ∧ f.readTicketFromGit = true) := h3
            simp only [h1, h2, hlist2, if_neg h3, validateAndCommit_gitBranch,
              Bool.true_eq_false, if_false, ne_eq, not_false_eq_true, true_and]
            simp [h4]
      · simp [h1]
  · intro hlist h1
    rw [main_eq f w hlist, if_pos h1, Sprintf_invalidType]
  · intro hlist h1 h2
    rw [main_eq f w hlist, if_neg (by simp [h1]), if_pos h2]
  · intro err hlist h1 h2 h3 h4 hb
    rw [main_eq f w hlist, if_neg (by simp [h1]), if_neg h2, if_pos ⟨h3, h4⟩, hb]
    simp only [Sprintf_lookupFailed]

/-- C15: the ticket lookup never fails at the index: splitting the trimmed output at
`/` always yields a first piece, which is the ticket returned. For an output that is
empty or white space only the ticket is the empty string, which the pattern check
rejects, so the run ends with exit code 1 after the pattern error, with no commit. -/
theorem branch_ticket_total (o : String) :
    0 < (Split (TrimSpace o) "/").length ∧
    (∃ t : String, (Split (TrimSpace o) "/")[0]? = some t ∧
      getTicketNameFromGit (.ok o) = some (.ok t)) ∧
    getTicketNameFromGit (.ok "") = some (.ok "") ∧
    getTicketNameFromGit (.ok " \n") = some (.ok "") ∧
    validateTicketName "" = false ∧
    ((∀ c ∈ o.data, isSpace c = true) →
      getTicketNameFromGit (.ok o) = some (.ok "") ∧
      ∀ (f : Flags) (w : World), f.listCommitTypes = false →
        commitTypeValid f.commitType = true → f.commitMsg ≠ "" → f.ticketName = "" →
        f.readTicketFromGit = true → w.gitBranch = .ok o →
        main f w =
          { events := [.gitBranch,
              .stderr "Ticket name does not match expected pattern: NODE-xxxx\n"],
            exitCode := 1 }) := by
  obtain ⟨rest, hrest⟩ := Split_slash (TrimSpace o)
  refine ⟨by simp [hrest], ⟨_, by simp [hrest], getTicketNameFromGit_ok o⟩, rfl, rfl,
    by decide, ?_⟩
  intro hblank
  have htrim : (TrimSpace o).data = [] := trimSpaceChars_blank o.data hblank
  have hticket : getTicketNameFromGit (.ok o) = some (.ok "") := by
    rw [getTicketNameFromGit_ok, htrim]
    rfl
  refine ⟨hticket, ?_⟩
  intro f w hlist h1 h2 h3 h4 hb
  rw [main_eq f w hlist, if_neg (by simp [h1]), if_neg h2, if_pos ⟨h3, h4⟩, hb]
  simp only [htrim, List.takeWhile_nil]
  have hempty : validateTicketName ⟨[]⟩ = false := by decide
  simp [validateAndCommit, hempty]

/-- C13: in every run `git commit` is run at most once. Either the run shows no
composed message, reads no answer and commits nothing; or its type is valid, its
message is not empty and its ticket (from `-ticket` or from the branch) matches the
pattern, and the message in the line of the dry run, or in the prompt and in any
`git commit`, is the one composed from them. A run with an unrecognised type or with
a ticket failing the pattern reaches neither the prompt nor the commit. -/
theorem composed_message_invariant (f : Flags) (w : World) :
    (∀ m, (main f w).events.count (Event.gitCommit m) ≤ 1) ∧
    (∀ m m', Event.gitCommit m ∈ (main f w).events →
      Event.gitCommit m' ∈ (main f w).events → m = m') ∧
    ((Event.readStdin ∉ (main f w).events ∧ (∀ m, Event.gitCommit m ∉ (main f w).events) ∧
        (f.listCommitTypes = false → ∀ t, Event.stdout t ∉ (main f w).events)) ∨
      ∃ (ticket : String) (rest : List Event),
        commitTypeValid f.commitType = true ∧ f.commitMsg ≠ "" ∧
        (((f.ticketName ≠ "" ∨ f.readTicketFromGit = false) ∧ ticket = f.ticketName) ∨
          (f.ticketName = "" ∧ f.readTicketFromGit = true ∧
            getTicketNameFromGit w.gitBranch = some (.ok ticket))) ∧
        validateTicketName ticket = true ∧
        (∀ m, Event.gitCommit m ∈ rest →
          m = buildCommitMessage f.commitType ticket f.commitMsg f.isBreaking) ∧
        (main f w).events =
          (if f.ticketName = "" ∧ f.readTicketFromGit = true then [Event.gitBranch] else []) ++
            (if f.dryRun = true then
              [Event.stdout ("Commit message: \"" ++
                buildCommitMessage f.commitType ticket f.commitMsg f.isBreaking ++ "\"\n")]
            else
              Event.stdout ("Create new commit with message \"" ++
                  buildCommitMessage f.commitType ticket f.commitMsg f.isBreaking ++
                  "\"? (y/n):\n") ::
                Event.readStdin :: rest)) ∧
    (commitTypeValid f.commitType = false →
      Event.readStdin ∉ (main f w).events ∧ ∀ m, Event.gitCommit m ∉ (main f w).events) ∧
    (∀ ticket : String,
      (((f.ticketName ≠ "" ∨ f.readTicketFromGit = false) ∧ ticket = f.ticketName) ∨
        (f.ticketName = "" ∧ f.readTicketFromGit = true ∧
          getTicketNameFromGit w.gitBranch = some (.ok ticket))) →
      validateTicketName ticket = false →
      Event.readStdin ∉ (main f w).events ∧ ∀ m, Event.gitCommit m ∉ (main f w).events) := by
  have hshape :
      (Event.readStdin ∉ (main f w).events ∧ (∀ m, Event.gitCommit m ∉ (main f w).events) ∧
        (f.listCommitTypes = false → ∀ t, Event.stdout t ∉ (main f w).events)) ∨
      ∃ (ticket : String) (rest : List Event),
        commitTypeValid f.commitType = true ∧ f.commitMsg ≠ "" ∧
        (((f.ticketName ≠ "" ∨ f.readTicketFromGit = false) ∧ ticket = f.ticketName) ∨
          (f.ticketName = "" ∧ f.readTicketFromGit = true ∧
            getTicketNameFromGit w.gitBranch = some (.ok ticket))) ∧
        validateTicketName ticket = true ∧
        (∀ m, Event.gitCommit m ∈ rest →
          m = buildCommitMessage f.commitType ticket f.commitMsg f.isBreaking) ∧
        (∀ m, rest.count (Event.gitCommit m) ≤ 1) ∧
        (main f w).events =
          (if f.ticketName = "" ∧ f.readTicketFromGit = true then [Event.gitBranch] else []) ++
            (if f.dryRun = true then
              [Event.stdout ("Commit message: \"" ++
                buildCommitMessage f.commitType ticket f.commitMsg f.isBreaking ++ "\"\n")]
            else
              Event.stdout ("Create new commit with message \"" ++
                  buildCommitMessage f.commitType ticket f.commitMsg f.isBreaking ++
                  "\"? (y/n):\n") ::
                Event.readStdin :: rest) := by
    by_cases hlist : f.listCommitTypes = true
    · left
      rw [main_listTypes f w hlist]
      simp [hlist]
    · have hlist2 : f.listCommitTypes = false := by simpa using hlist
      rcases main_events_cases f w hlist2 with hA | hB
      · left
        refine ⟨?_, ?_, ?_⟩
        · intro h
          rcases hA _ h with ⟨t, ht⟩ | ht | ht <;> cases ht
        · intro m h
          rcases hA _ h with ⟨t, ht⟩ | ht | ht <;> cases ht
        · intro _ t h
          rcases hA _ h with ⟨t, ht⟩ | ht | ht <;> cases ht
      · exact Or.inr hB
  have hmem : ∀ (ticket : String) (rest : List Event) (m : String),
      (main f w).events =
          (if f.ticketName = "" ∧ f.readTicketFromGit = true then [Event.gitBranch] else []) ++
            (if f.dryRun = true then
              [Event.stdout ("Commit message: \"" ++
                buildCommitMessage f.commitType ticket f.commitMsg f.isBreaking ++ "\"\n")]
            else
              Event.stdout ("Create new commit with message \"" ++
                  buildCommitMessage f.commitType ticket f.commitMsg f.isBreaking ++
                  "\"? (y/n):\n") ::
                Event.readStdin :: rest) →
      (Event.gitCommit m ∈ (main f w).events ↔ f.dryRun = false ∧ Event.gitCommit m ∈ rest) ∧
      (main f w).events.count (Event.gitCommit m) =
        if f.dryRun = true then 0 else rest.count (Event.gitCommit m) := by
    intro ticket rest m hev
    rw [hev]
    have hp := (pre_events (f.ticketName = "" ∧ f.readTicketFromGit = true)).1 m
    cases hd : f.dryRun
    · refine ⟨by simp [hp], ?_⟩
      simp only [List.count_append, List.count_eq_zero.2 hp, Bool.false_eq_true, if_false,
        List.count_cons, zero_add]
      simp
    · refine ⟨by simp [hp], ?_⟩
      simp only [List.count_append, List.count_eq_zero.2 hp, if_true, List.count_cons,
        List.count_nil, zero_add]
      simp
  have hreject : ¬ (∃ (ticket : String), commitTypeValid f.commitType = true ∧
        (((f.ticketName ≠ "" ∨ f.readTicketFromGit = false) ∧ ticket = f.ticketName) ∨
          (f.ticketName = "" ∧ f.readTicketFromGit = true ∧
            getTicketNameFromGit w.gitBranch = some (.ok ticket))) ∧
        validateTicketName ticket = true) →
      Event.readStdin ∉ (main f w).events ∧ ∀ m, Event.gitCommit m ∉ (main f w).events := by
    intro hno
    rcases hshape with hA | ⟨ticket, rest, h1, _, hsrc, hv, _⟩
    · exact ⟨hA.1, hA.2.1⟩
    · exact absurd ⟨ticket, h1, hsrc, hv⟩ hno
  refine ⟨?_, ?_, ?_, ?_, ?_⟩
  · intro m
    rcases hshape with hA | ⟨ticket, rest, _, _, _, _, _, hr2, hev⟩
    · rw [List.count_eq_zero.2 (hA.2.1 m)]
      exact Nat.zero_le 1
    · rw [(hmem ticket rest m hev).2]
      split_ifs
      · exact Nat.zero_le 1
      · exact hr2 m
  · intro m m' hm hm'
    rcases hshape with hA | ⟨ticket, rest, _, _, _, _, hr1, _, hev⟩
    · exact absurd hm (hA.2.1 m)
    · rw [hr1 m ((hmem ticket rest m hev).1.1 hm).2, hr1 m' ((hmem ticket rest m' hev).1.1 hm').2]
  · rcases hshape with hA | ⟨ticket, rest, h1, h2, hsrc, hv, hr1, _, hev⟩
    · exact Or.inl hA
    · exact Or.inr ⟨ticket, rest, h1, h2, hsrc, hv, hr1, hev⟩
  · intro htype
    apply hreject
    rintro ⟨_, h1, _⟩
    rw [htype] at h1
    cases h1
  · intro ticket hsrc hv
    apply hreject
    rintro ⟨t2, _, hsrc2, hv2⟩
    rw [ticket_source_unique f w ticket t2 hsrc hsrc2, hv2] at hv
    cases hv

end NodeDbxCommit
